import Mathlib

/-!
Shallow embedding of the staged, memoizing EPG fetch pipeline of
src/epg_downloader.py: exception classification, the retrying fetcher
(download_with_retries), the URL-keyed cache wrapper (download_cached_by_url),
the bounded gather (gather_with_concurrency), the per-stage enrichment
functions over the Channel/Program hierarchy, and the frame effect of the
image stage on the local filesystem.
-/

deriving instance DecidableEq for Except

namespace EpgDownloader

/-- Exception classes distinguished by the Python code: the built-in retryable
list of download_with_retries, the extra classes passed by the callers, and a
stand-in for any other runtime exception. -/
inductive ExcClass
  | timeoutError
  | clientConnectionError
  | clientResponseError
  | serverDisconnectedError
  | jsonDecodeError
  | validationError
  | attributeError
  | keyError
  | typeError
  | otherError (name : String)
deriving DecidableEq, Repr

/-- Python isinstance on the modelled exception classes: every class is an
instance of itself, and aiohttp ServerDisconnectedError is a subclass of
ClientConnectionError. -/
def isInstanceOf (e c : ExcClass) : Bool :=
  (e == c) || (e == .serverDisconnectedError && c == .clientConnectionError)

/-- Python values that flow through the cache and the loaders, with just
enough structure to decide Python truthiness; elements of lists and byte
strings are opaque atoms since no claim inspects them. -/
inductive DVal
  | vnone
  | vint (n : Int)
  | vstr (s : String)
  | vbytes (bs : List Nat)
  | vlist (xs : List Nat)
  | vobj (name : String)
deriving DecidableEq, Repr

/-- Python truthiness of a modelled value: None, 0, the empty string, empty
bytes and the empty list are falsy; model objects are truthy. -/
def DVal.truthy : DVal → Bool
  | .vnone => false
  | .vint n => n != 0
  | .vstr s => s != ""
  | .vbytes bs => !bs.isEmpty
  | .vlist xs => !xs.isEmpty
  | .vobj _ => true

/-- DISK_CACHE.get: the cache is an association list over URL keys with at
most one live entry per URL. -/
def cacheGet (cache : List (String × DVal)) (url : String) : Option DVal :=
  (cache.find? (fun entry => decide (entry.1 = url))).map (fun entry => entry.2)

/-- DISK_CACHE.set: store the value under the URL key, replacing any previous
entry for that URL. -/
def cacheSet (cache : List (String × DVal)) (url : String) (v : DVal) :
    List (String × DVal) :=
  (url, v) :: cache.filter (fun entry => decide (entry.1 ≠ url))

/-- Result of one call through the cache wrapper: the returned value or the
propagated exception, the cache state afterwards, and how many times the
wrapped network function was invoked (0 on a cache hit, 1 otherwise). -/
structure FetchResult where
  value : Except ExcClass DVal
  cache : List (String × DVal)
  networkCalls : Nat
deriving DecidableEq, Repr

/-- Body of the wrapped-function call inside download_cached_by_url: await
func, and on a truthy result persist it in the cache keyed by the URL. -/
def runFetch (cache : List (String × DVal)) (url : String)
    (func : Except ExcClass DVal) : FetchResult :=
  match func with
  | .error e => ⟨.error e, cache, 1⟩
  | .ok v => ⟨.ok v, if v.truthy then cacheSet cache url v else cache, 1⟩

/-- download_cached_by_url: consult DISK_CACHE by URL first; a falsy or
absent cached value counts as a miss, in which case the wrapped function runs
and a truthy result is persisted with the global TTL. -/
def download_cached_by_url (cache : List (String × DVal)) (url : String)
    (func : Except ExcClass DVal) : FetchResult :=
  match cacheGet cache url with
  | some v => if v.truthy then ⟨.ok v, cache, 0⟩ else runFetch cache url func
  | none => runFetch cache url func

/-- Outcome of the retry loop of download_with_retries: the value returned or
the exception propagated, the number of fetch attempts made, and whether the
exhaustion warning was logged. -/
structure RetryOutcome (α : Type) where
  value : Except ExcClass α
  attemptsMade : Nat
  warned : Bool
deriving DecidableEq, Repr

/-- The is_exc_valid test: some class of the configured exception list admits
the raised exception as an instance. -/
def isRetryable (exceptions : List ExcClass) (e : ExcClass) : Bool :=
  exceptions.any (fun c => isInstanceOf e c)

/-- The while-True loop of download_with_retries. The fuel argument is the
number of retries still allowed (retries_max minus the retries already
consumed); idx is the zero-based index of the current attempt and timeout the
per-attempt timeout, increased by timeoutIncrement and capped at timeoutMax
after every failure. An attempt is a function of the attempt index and the
current timeout, returning the post-loader value or the raised exception. -/
def retryLoop {α : Type} (attempt : Nat → Nat → Except ExcClass α)
    (exceptions : List ExcClass) (retDefault : α)
    (timeoutIncrement timeoutMax : Nat) :
    Nat → Nat → Nat → RetryOutcome α
  | 0, idx, timeout =>
    match attempt idx timeout with
    | .ok v => ⟨.ok v, idx + 1, false⟩
    | .error e =>
      if isRetryable exceptions e then ⟨.ok retDefault, idx + 1, true⟩
      else ⟨.error e, idx + 1, false⟩
  | fuel + 1, idx, timeout =>
    match attempt idx timeout with
    | .ok v => ⟨.ok v, idx + 1, false⟩
    | .error e =>
      if isRetryable exceptions e then
        retryLoop attempt exceptions retDefault timeoutIncrement timeoutMax
          fuel (idx + 1) (min (timeout + timeoutIncrement) timeoutMax)
      else ⟨.error e, idx + 1, false⟩

/-- The retryable exception list built at the top of download_with_retries:
the four built-in classes, JSONDecodeError when the method is json, then the
extra_exceptions of the caller. -/
def defaultExceptions (method : String) (extraExceptions : List ExcClass) :
    List ExcClass :=
  [.timeoutError, .clientConnectionError, .clientResponseError,
    .serverDisconnectedError]
    ++ (if method = "json" then [.jsonDecodeError] else [])
    ++ extraExceptions

/-- download_with_retries (the undecorated coroutine of lines 108-135): run
the retry loop with retry starting at 1, so with retriesMax retries left, on
the given initial timeout. -/
def download_with_retries {α : Type} (method : String)
    (extraExceptions : List ExcClass) (retriesMax : Nat) (retDefault : α)
    (timeout timeoutIncrement timeoutMax : Nat)
    (attempt : Nat → Nat → Except ExcClass α) : RetryOutcome α :=
  retryLoop attempt (defaultExceptions method extraExceptions) retDefault
    timeoutIncrement timeoutMax retriesMax 0 timeout

/-- Result semantics of gather_with_concurrency, which delegates to
asyncio.gather without return_exceptions: if every task returns a value the
ordered list of values is returned; if some task raises, the await raises
that exception (every task still runs to completion, but no result list is
produced for the caller). -/
def gather_with_concurrency {α : Type} :
    List (Except ExcClass α) → Except ExcClass (List α)
  | [] => .ok []
  | o :: rest =>
    match o with
    | .error e => .error e
    | .ok v =>
      match gather_with_concurrency rest with
      | .error e => .error e
      | .ok vs => .ok (v :: vs)

/-- Image entry of details.images, with the metadata fields the image stage
rewrites after a successful download (width, height, bucketPath, bucketType);
bucketPath initially points at the remote location. -/
structure ProgramImage where
  url : String
  width : Nat
  height : Nat
  bucketPath : String
  bucketType : String
deriving DecidableEq, Repr

/-- Program details payload, exposing the fields the pipeline reads: the
secondary id used by the cast stage and the image references used by the
image stage. -/
structure ProgramDetails where
  mcoId : Option Nat
  images : List ProgramImage
deriving DecidableEq, Repr

/-- Cast payload; opaque to the pipeline. -/
structure ShowsCast where
  id : String
deriving DecidableEq, Repr

/-- Program work item created by the FetchPrograms stage; details and cast
start absent, tags accumulate by append. -/
structure Program where
  id : Nat
  start_timestamp : Nat
  end_timestamp : Nat
  name : String
  tags : List String
  details : Option ProgramDetails
  cast : Option ShowsCast
deriving DecidableEq, Repr

/-- Channel record of the catalog, with the nullable guide-source id and the
program list populated by the FetchPrograms stage. -/
structure Channel where
  stream_id : String
  name : String
  language : String
  tvguide_id : Option String
  programs : List Program
deriving DecidableEq, Repr

/-- Python truthiness of the nullable tvguide_id field: absent (None) and the
empty string are falsy. -/
def strOptFalsy : Option String → Bool
  | none => true
  | some s => s == ""

/-- download_programs: a channel whose tvguide_id is falsy gets the empty
program list and no fetch; otherwise the fetched (post-retry) program list is
assigned. The second component counts the network fetch calls issued for the
channel (0 on the skip path, 1 otherwise). -/
def download_programs (fetched : List Program) (channel : Channel) :
    Channel × Nat :=
  if strOptFalsy channel.tvguide_id then ({ channel with programs := [] }, 0)
  else ({ channel with programs := fetched }, 1)

/-- Number of per-program tasks a channel contributes to each of the later
stages: download_and_make_epg builds one task per element of the program
list of the channel for the detail, cast and image stages, and the tag stage
iterates the same list. -/
def perProgramTasks (channel : Channel) : Nat :=
  channel.programs.length

/-- Metadata rewrite performed on an image after a successful download: the
dimensions of the resized local copy, the bucketPath rebased onto the base
URL under images/posters, and the bucketType set to local. -/
def processedImage (base_url : String) (img : ProgramImage) (w h : Nat) :
    ProgramImage :=
  { img with
    width := w
    height := h
    bucketPath := base_url ++ "/images/posters/" ++ img.bucketPath
    bucketType := "local" }

/-- Per-image loop of download_program_images: each image is processed under
its own try block, so the outcome of image i (the resized dimensions on
success, or the exception raised anywhere before the metadata rewrite) is
consulted independently; on failure the image is left unmodified and the loop
continues with the next image. -/
def download_program_images (outcome : Nat → Except ExcClass (Nat × Nat))
    (base_url : String) : Nat → List ProgramImage → List ProgramImage
  | _, [] => []
  | i, img :: rest =>
    (match outcome i with
      | .ok (w, h) => processedImage base_url img w h
      | .error _ => img) :: download_program_images outcome base_url (i + 1) rest

/-- Guard of download_program_images: a program without details has nothing
to download and is left untouched. -/
def processProgramImages (outcome : Nat → Except ExcClass (Nat × Nat))
    (base_url : String) (p : Program) : Program :=
  match p.details with
  | none => p
  | some det =>
    let det2 :=
      { det with images := download_program_images outcome base_url 0 det.images }
    { p with details := some det2 }

/-- Lookup in the post-loader result of the tag bulk fetch: a dict keyed by
the pair (programId, startTime) holding the airingAttrib bitmask. -/
def tagLookup (data : List ((Nat × Nat) × Nat)) (k : Nat × Nat) : Option Nat :=
  (data.find? (fun kv => decide (kv.1 = k))).map (fun kv => kv.2)

/-- Membership in the programs_new or programs_live set of
download_program_tags: the key is present and its attribute has the given
bit set. -/
def inTagSet (data : List ((Nat × Nat) × Nat)) (k : Nat × Nat) (mask : Nat) :
    Bool :=
  match tagLookup data k with
  | some v => v &&& mask != 0
  | none => false

/-- Tag merge for one program: append new when the (id, start_timestamp)
pair is in the new-set (bit 0b100), then append live when it is in the
live-set (bit 0b1). -/
def applyProgramTags (data : List ((Nat × Nat) × Nat)) (p : Program) :
    Program :=
  let p1 := if inTagSet data (p.id, p.start_timestamp) 0b100
    then { p with tags := p.tags ++ ["new"] } else p
  if inTagSet data (p1.id, p1.start_timestamp) 0b1
    then { p1 with tags := p1.tags ++ ["live"] } else p1

/-- download_program_tags: the bulk fetch yields None (the retry default) or
the post-loader dict; only a truthy dict — present and nonempty — is merged
into the channels, every program of every channel being tested against the
two bitmask sets. -/
def download_program_tags (data : Option (List ((Nat × Nat) × Nat)))
    (channels : List Channel) : List Channel :=
  match data with
  | none => channels
  | some d =>
    if d.isEmpty then channels
    else channels.map
      (fun ch => { ch with programs := ch.programs.map (applyProgramTags d) })

/-- Relative path of the local posters directory wiped by
download_and_make_epg before the image stage. -/
def postersDirName : String := "images/posters"

/-- Test that the string s starts with the string pre, over the underlying
character lists. -/
def strStarts (pre s : String) : Bool :=
  pre.data.isPrefixOf s.data

/-- shutil.rmtree on the modelled filesystem (a list of file paths): every
path inside the directory is removed. -/
def rmtree (dir : String) (fs : List String) : List String :=
  fs.filter (fun p => !(strStarts (dir ++ "/") p))

/-- Filesystem effect of the image stage of download_and_make_epg: the
posters directory is removed recursively first, then exactly the images
re-downloaded in this run are written back. -/
def imagesStageFiles (writes : List String) (fs : List String) : List String :=
  rmtree postersDirName fs ++ writes

/-- Stage labels of the Stage Executor of download_and_make_epg. -/
inductive StageTag
  | fetchPrograms
  | fetchDetails
  | fetchCast
  | fetchImages
  | fetchTags
deriving DecidableEq, Repr

/-- Completion events of the n tasks of one stage, in task order. -/
def stageTrace (s : StageTag) (n : Nat) : List (StageTag × Nat) :=
  (List.range n).map (fun i => (s, i))

/-- Event trace of download_and_make_epg: each stage is awaited to completion
before the next begins, so the global trace is the concatenation of the
per-stage traces, each of which may interleave its own tasks arbitrarily. -/
def pipelineTrace (p d c im tg : List (StageTag × Nat)) :
    List (StageTag × Nat) :=
  p ++ (d ++ (c ++ (im ++ tg)))

/-- Position of a stage in the strictly sequential stage order of
download_and_make_epg; stage k + 1 is awaited only after stage k. -/
def stageIndex : StageTag → Nat
  | .fetchPrograms => 0
  | .fetchDetails => 1
  | .fetchCast => 2
  | .fetchImages => 3
  | .fetchTags => 4

/-- Cache-wide truthiness invariant: every value stored in the cache is
truthy. -/
def cacheAllTruthy (cache : List (String × DVal)) : Bool :=
  cache.all (fun entry => entry.2.truthy)

/-- Helper: when every attempt fails with a retryable exception, the retry
loop consumes all its fuel, makes one attempt per unit of fuel plus the
initial one, logs the warning and returns the default. -/
theorem retryLoop_all_retryable {α : Type} (attempt : Nat → Nat → Except ExcClass α)
    (exceptions : List ExcClass) (retDefault : α) (ti tm : Nat)
    (h : ∀ i t, ∃ e, attempt i t = .error e ∧ isRetryable exceptions e = true) :
    ∀ fuel idx timeout,
      retryLoop attempt exceptions retDefault ti tm fuel idx timeout =
        ⟨.ok retDefault, idx + fuel + 1, true⟩ := by
  intro fuel
  induction fuel with
  | zero =>
    intro idx timeout
    obtain ⟨e, he, hr⟩ := h idx timeout
    simp [retryLoop, he, hr]
  | succ n ih =>
    intro idx timeout
    obtain ⟨e, he, hr⟩ := h idx timeout
    rw [retryLoop, he]
    simp only [hr, if_true]
    rw [ih]
    simp [RetryOutcome.mk.injEq]
    omega

/-- Helper: when the first k attempts fail retryably, the loop has at least k
units of fuel left, and attempt k raises a non-retryable exception, the loop
propagates that exception after attempt k. -/
theorem retryLoop_nonretryable {α : Type} (attempt : Nat → Nat → Except ExcClass α)
    (exceptions : List ExcClass) (retDefault : α) (ti tm : Nat) (e : ExcClass)
    (he : isRetryable exceptions e = false) :
    ∀ k fuel idx timeout, k ≤ fuel →
      (∀ i t, i < k → ∃ ei, attempt (idx + i) t = .error ei ∧
        isRetryable exceptions ei = true) →
      (∀ t, attempt (idx + k) t = .error e) →
      retryLoop attempt exceptions retDefault ti tm fuel idx timeout =
        ⟨.error e, idx + k + 1, false⟩ := by
  intro k
  induction k with
  | zero =>
    intro fuel idx timeout _ _ hcur
    have hc := hcur timeout
    simp only [Nat.add_zero] at hc
    cases fuel with
    | zero => simp [retryLoop, hc, he]
    | succ f => simp [retryLoop, hc, he]
  | succ n ih =>
    intro fuel idx timeout hfuel hprior hcur
    cases fuel with
    | zero => exact absurd hfuel (by omega)
    | succ f =>
      obtain ⟨e0, he0, hr0⟩ := hprior 0 timeout (by omega)
      simp only [Nat.add_zero] at he0
      rw [retryLoop, he0]
      simp only [hr0, if_true]
      have step := ih f (idx + 1) (min (timeout + ti) tm) (by omega)
        (fun i t hi => by
          have hp := hprior (i + 1) t (by omega)
          have harith : idx + (i + 1) = idx + 1 + i := by omega
          rw [harith] at hp
          exact hp)
        (fun t => by
          have hc := hcur t
          have harith : idx + (n + 1) = idx + 1 + n := by omega
          rw [harith] at hc
          exact hc)
      rw [step]
      simp [RetryOutcome.mk.injEq]
      omega

/-- C2: with retries_max = r and every attempt raising an exception from the
configured retryable set, download_with_retries makes exactly r + 1 fetch
attempts, then logs a warning and returns ret_default instead of raising. -/
theorem download_with_retries_exhausts {α : Type} (method : String)
    (extra : List ExcClass) (r : Nat) (retDefault : α) (t0 ti tm : Nat)
    (attempt : Nat → Nat → Except ExcClass α)
    (h : ∀ i t, ∃ e, attempt i t = .error e ∧
      isRetryable (defaultExceptions method extra) e = true) :
    download_with_retries method extra r retDefault t0 ti tm attempt =
      ⟨.ok retDefault, r + 1, true⟩ := by
  have hmain := retryLoop_all_retryable attempt (defaultExceptions method extra)
    retDefault ti tm h r 0 t0
  simpa [download_with_retries] using hmain

/-- Witness for C2: three attempts, all timing out, with retries_max = 2. -/
theorem download_with_retries_exhausts_witness :
    download_with_retries "json" [] 2 DVal.vnone 1 1 10
        (fun _ _ => .error .timeoutError) =
      ⟨.ok DVal.vnone, 3, true⟩ :=
  download_with_retries_exhausts "json" [] 2 DVal.vnone 1 1 10
    (fun _ _ => .error .timeoutError)
    (fun _ _ => ⟨.timeoutError, rfl, by decide⟩)

/-- C4: an attempt that raises an exception outside the retryable set makes
download_with_retries propagate that exception to the caller at once, with no
further attempt: attempts 0..k-1 failed retryably, attempt k raises the
non-retryable e, and the call ends after exactly k + 1 attempts with e. -/
theorem download_with_retries_nonretryable {α : Type} (method : String)
    (extra : List ExcClass) (retriesMax : Nat) (retDefault : α)
    (t0 ti tm k : Nat) (attempt : Nat → Nat → Except ExcClass α) (e : ExcClass)
    (hk : k ≤ retriesMax)
    (hprior : ∀ i t, i < k → ∃ ei, attempt i t = .error ei ∧
      isRetryable (defaultExceptions method extra) ei = true)
    (hcur : ∀ t, attempt k t = .error e)
    (he : isRetryable (defaultExceptions method extra) e = false) :
    download_with_retries method extra retriesMax retDefault t0 ti tm attempt =
      ⟨.error e, k + 1, false⟩ := by
  have hmain := retryLoop_nonretryable attempt (defaultExceptions method extra)
    retDefault ti tm e he k retriesMax 0 t0 hk
    (fun i t hi => by simpa using hprior i t hi)
    (fun t => by simpa using hcur t)
  simpa [download_with_retries] using hmain

/-- Witness for C4: the very first attempt raises TypeError, which is not in
the retryable set, and the call propagates it after one attempt. -/
theorem download_with_retries_nonretryable_witness :
    download_with_retries "json" [] 5 DVal.vnone 1 1 10
        (fun _ _ => .error .typeError) =
      ⟨.error .typeError, 1, false⟩ :=
  download_with_retries_nonretryable "json" [] 5 DVal.vnone 1 1 10 0
    (fun _ _ => .error .typeError) .typeError (by omega)
    (fun i t hi => absurd hi (by omega))
    (fun _ => rfl) (by decide)

/-- C1 counterexample: a two-task batch whose second task raises TypeError.
The await of gather_with_concurrency raises that exception: no result list is
produced, so the run does not complete with the failed item defaulted. -/
theorem gather_error_aborts_batch :
    gather_with_concurrency
        [Except.ok (DVal.vint 1), Except.error ExcClass.typeError] =
        Except.error ExcClass.typeError ∧
      gather_with_concurrency
        [Except.ok (DVal.vint 1), Except.error ExcClass.typeError] ≠
        Except.ok [DVal.vint 1, DVal.vnone] := by
  decide

/-- C1 amended: sibling outcomes are all evaluated, but if some task of the
batch raises, gather_with_concurrency itself raises, aborting the awaiting
stage rather than reporting that item as default; the batch yields the full
ordered result list exactly when every task returns a value, as happens when
failures are absorbed into defaults inside download_with_retries. -/
theorem gather_with_concurrency_outcome (outcomes : List (Except ExcClass DVal)) :
    ((∃ e, Except.error e ∈ outcomes) →
      ∃ e2, gather_with_concurrency outcomes = Except.error e2) ∧
      ((∀ o ∈ outcomes, ∃ v, o = Except.ok v) →
        ∃ vs, gather_with_concurrency outcomes = Except.ok vs ∧
          vs.length = outcomes.length) := by
  induction outcomes with
  | nil =>
    constructor
    · rintro ⟨e, he⟩
      simp at he
    · intro _
      exact ⟨[], rfl, rfl⟩
  | cons o rest ih =>
    constructor
    · rintro ⟨e, he⟩
      cases o with
      | error e0 => exact ⟨e0, rfl⟩
      | ok v =>
        rcases List.mem_cons.mp he with h1 | h2
        · exact Except.noConfusion h1
        · obtain ⟨e2, hg⟩ := ih.1 ⟨e, h2⟩
          refine ⟨e2, ?_⟩
          simp [gather_with_concurrency, hg]
    · intro hall
      cases o with
      | error e0 =>
        obtain ⟨v, hv⟩ := hall _ (List.mem_cons_self _ _)
        exact Except.noConfusion hv
      | ok v =>
        obtain ⟨vs, hg, hlen⟩ :=
          ih.2 (fun o2 ho2 => hall o2 (List.mem_cons_of_mem _ ho2))
        refine ⟨v :: vs, ?_, ?_⟩
        · simp [gather_with_concurrency, hg]
        · simp [hlen]

/-- Witness for the amended C1: a batch containing an error yields an error
from the gather. -/
theorem gather_with_concurrency_outcome_witness :
    ∃ e2, gather_with_concurrency
        [Except.error ExcClass.timeoutError, Except.ok DVal.vnone] =
      Except.error e2 :=
  (gather_with_concurrency_outcome
      [Except.error ExcClass.timeoutError, Except.ok DVal.vnone]).1
    ⟨ExcClass.timeoutError, by simp⟩

/-- Helper: a freshly stored value is found by a lookup with the same URL. -/
theorem cacheGet_cacheSet (cache : List (String × DVal)) (url : String)
    (v : DVal) : cacheGet (cacheSet cache url v) url = some v := by
  simp [cacheGet, cacheSet]

/-- Helper: reduction of download_cached_by_url on a truthy cache hit. -/
theorem dcbu_hit (cache : List (String × DVal)) (url : String) (v : DVal)
    (h : cacheGet cache url = some v) (ht : v.truthy = true)
    (f : Except ExcClass DVal) :
    download_cached_by_url cache url f = ⟨Except.ok v, cache, 0⟩ := by
  simp [download_cached_by_url, h, ht]

/-- Helper: reduction of download_cached_by_url on an absent cache entry. -/
theorem dcbu_miss_none (cache : List (String × DVal)) (url : String)
    (h : cacheGet cache url = none) (f : Except ExcClass DVal) :
    download_cached_by_url cache url f = runFetch cache url f := by
  simp [download_cached_by_url, h]

/-- Helper: reduction of download_cached_by_url on a falsy cache entry, which
counts as a miss. -/
theorem dcbu_miss_falsy (cache : List (String × DVal)) (url : String)
    (v : DVal) (h : cacheGet cache url = some v) (ht : v.truthy = false)
    (f : Except ExcClass DVal) :
    download_cached_by_url cache url f = runFetch cache url f := by
  simp [download_cached_by_url, h, ht]

/-- Helper: after a call through download_cached_by_url returns a truthy
value, the cache afterwards holds exactly that value under the URL. -/
theorem download_cached_value_stored (cache : List (String × DVal))
    (url : String) (f : Except ExcClass DVal) (v : DVal)
    (hv : (download_cached_by_url cache url f).value = Except.ok v)
    (ht : v.truthy = true) :
    cacheGet (download_cached_by_url cache url f).cache url = some v := by
  cases hcg : cacheGet cache url with
  | some w =>
    by_cases hw : w.truthy
    · rw [dcbu_hit cache url w hcg hw f] at hv ⊢
      have hwv : w = v := by simpa using hv
      rw [← hwv]
      exact hcg
    · rw [dcbu_miss_falsy cache url w hcg (by simpa using hw) f] at hv ⊢
      cases f with
      | error e => exact Except.noConfusion hv
      | ok u =>
        have huv : u = v := by simpa [runFetch] using hv
        subst huv
        simp [runFetch, ht, cacheGet_cacheSet]
  | none =>
    rw [dcbu_miss_none cache url hcg f] at hv ⊢
    cases f with
    | error e => exact Except.noConfusion hv
    | ok u =>
      have huv : u = v := by simpa [runFetch] using hv
      subst huv
      simp [runFetch, ht, cacheGet_cacheSet]

/-- C3 counterexample: the first call succeeds with the falsy post-loader
value [] (an empty list), which the wrapper does not persist; the second call
for the same URL performs a network fetch again instead of a cache hit. -/
theorem second_call_after_falsy_success_fetches :
    (download_cached_by_url [] "u" (Except.ok (DVal.vlist []))).value =
        Except.ok (DVal.vlist []) ∧
      (download_cached_by_url
          (download_cached_by_url [] "u" (Except.ok (DVal.vlist []))).cache "u"
          (Except.ok (DVal.vlist []))).networkCalls ≠ 0 := by
  decide

/-- C3 amended: after a call through download_cached_by_url for a URL returns
a truthy post-loader value v, a second call for the same URL within the TTL
window performs no network fetch and returns v straight from the cache. -/
theorem download_cached_by_url_second_hit (cache : List (String × DVal))
    (url : String) (f1 f2 : Except ExcClass DVal) (v : DVal)
    (hv : (download_cached_by_url cache url f1).value = Except.ok v)
    (ht : v.truthy = true) :
    download_cached_by_url (download_cached_by_url cache url f1).cache url f2 =
      ⟨Except.ok v, (download_cached_by_url cache url f1).cache, 0⟩ := by
  have hstored := download_cached_value_stored cache url f1 v hv ht
  exact dcbu_hit (download_cached_by_url cache url f1).cache url v hstored ht f2

/-- Witness for the amended C3: a truthy first result (the integer 7) is
served from the cache on the second call even though the network now fails. -/
theorem download_cached_by_url_second_hit_witness :
    download_cached_by_url
        (download_cached_by_url [] "u" (Except.ok (DVal.vint 7))).cache "u"
        (Except.error ExcClass.typeError) =
      ⟨Except.ok (DVal.vint 7),
        (download_cached_by_url [] "u" (Except.ok (DVal.vint 7))).cache, 0⟩ :=
  download_cached_by_url_second_hit [] "u" (Except.ok (DVal.vint 7))
    (Except.error ExcClass.typeError) (DVal.vint 7) (by decide) (by decide)

/-- Helper: storing a truthy value preserves the all-truthy cache invariant. -/
theorem cacheAllTruthy_cacheSet (cache : List (String × DVal)) (url : String)
    (v : DVal) (h : cacheAllTruthy cache = true) (hv : v.truthy = true) :
    cacheAllTruthy (cacheSet cache url v) = true := by
  simp only [cacheAllTruthy, cacheSet, List.all_cons, Bool.and_eq_true,
    List.all_eq_true] at *
  exact ⟨hv, fun e he => h e (List.mem_filter.mp he).1⟩

/-- C9: the cache write of download_cached_by_url happens only for truthy
results, so every call preserves the invariant that every stored value is
truthy; a falsy fetch result (in particular the ret_default returned after
retry exhaustion) leaves the cache unchanged, and when such a call reached
the network, a later call for the same URL reaches the network again instead
of serving a cached failure. -/
theorem cache_truthy_invariant (cache : List (String × DVal)) (url : String)
    (f : Except ExcClass DVal) (h : cacheAllTruthy cache = true) :
    cacheAllTruthy (download_cached_by_url cache url f).cache = true ∧
      (∀ v, f = Except.ok v → v.truthy = false →
        (download_cached_by_url cache url f).cache = cache ∧
          ((download_cached_by_url cache url f).networkCalls = 1 →
            ∀ g, (download_cached_by_url
              (download_cached_by_url cache url f).cache url g).networkCalls =
              1)) := by
  cases hcg : cacheGet cache url with
  | some w =>
    by_cases hw : w.truthy
    · rw [dcbu_hit cache url w hcg hw f]
      exact ⟨h, fun v hf hvf => ⟨rfl, fun h01 => absurd h01 (by simp)⟩⟩
    · have hwf : w.truthy = false := by simpa using hw
      rw [dcbu_miss_falsy cache url w hcg hwf f]
      cases f with
      | error e =>
        exact ⟨h, fun v hf hvf => Except.noConfusion hf⟩
      | ok u =>
        by_cases hu : u.truthy
        · constructor
          · simpa [runFetch, hu] using cacheAllTruthy_cacheSet cache url u h hu
          · intro v hf hvf
            cases hf
            rw [hu] at hvf
            exact Bool.noConfusion hvf
        · have huf : u.truthy = false := by simpa using hu
          constructor
          · simpa [runFetch, huf] using h
          · intro v hf hvf
            refine ⟨by simp [runFetch, huf], fun _ g => ?_⟩
            have hcache : (runFetch cache url (Except.ok u)).cache = cache := by
              simp [runFetch, huf]
            rw [hcache, dcbu_miss_falsy cache url w hcg hwf g]
            cases g <;> simp [runFetch]
  | none =>
    rw [dcbu_miss_none cache url hcg f]
    cases f with
    | error e =>
      exact ⟨h, fun v hf hvf => Except.noConfusion hf⟩
    | ok u =>
      by_cases hu : u.truthy
      · constructor
        · simpa [runFetch, hu] using cacheAllTruthy_cacheSet cache url u h hu
        · intro v hf hvf
          cases hf
          rw [hu] at hvf
          exact Bool.noConfusion hvf
      · have huf : u.truthy = false := by simpa using hu
        constructor
        · simpa [runFetch, huf] using h
        · intro v hf hvf
          refine ⟨by simp [runFetch, huf], fun _ g => ?_⟩
          have hcache : (runFetch cache url (Except.ok u)).cache = cache := by
            simp [runFetch, huf]
          rw [hcache, dcbu_miss_none cache url hcg g]
          cases g <;> simp [runFetch]

/-- Witness for C9: a falsy result (None, the ret_default) is not stored, and
the next call for the same URL reaches the network again. -/
theorem cache_truthy_invariant_witness :
    (download_cached_by_url
        (download_cached_by_url [] "u" (Except.ok DVal.vnone)).cache "u"
        (Except.ok DVal.vnone)).networkCalls = 1 :=
  ((cache_truthy_invariant [] "u" (Except.ok DVal.vnone) (by decide)).2
      DVal.vnone rfl (by decide)).2 (by decide) (Except.ok DVal.vnone)

/-- Helper: every event of a stage trace carries that stage label. -/
theorem stageTrace_mem (s : StageTag) (n : Nat) :
    ∀ x ∈ stageTrace s n, x.1 = s := by
  intro x hx
  simp only [stageTrace, List.mem_map, List.mem_range] at hx
  obtain ⟨a, _, rfl⟩ := hx
  rfl

/-- Helper: the pipeline trace is sorted by stage position: every event at an
earlier trace position belongs to a stage no later than the stage of every
event at a later position. -/
theorem pipelineTrace_pairwise (np nd nc ni nt : Nat)
    (p d c im tg : List (StageTag × Nat))
    (hp : p.Perm (stageTrace .fetchPrograms np))
    (hd : d.Perm (stageTrace .fetchDetails nd))
    (hc : c.Perm (stageTrace .fetchCast nc))
    (him : im.Perm (stageTrace .fetchImages ni))
    (htg : tg.Perm (stageTrace .fetchTags nt)) :
    (pipelineTrace p d c im tg).Pairwise
      (fun x y => stageIndex x.1 ≤ stageIndex y.1) := by
  have hdtag : ∀ x ∈ d, x.1 = StageTag.fetchDetails :=
    fun x hx => stageTrace_mem _ nd x (hd.mem_iff.mp hx)
  have hctag : ∀ x ∈ c, x.1 = StageTag.fetchCast :=
    fun x hx => stageTrace_mem _ nc x (hc.mem_iff.mp hx)
  have himtag : ∀ x ∈ im, x.1 = StageTag.fetchImages :=
    fun x hx => stageTrace_mem _ ni x (him.mem_iff.mp hx)
  have htgtag : ∀ x ∈ tg, x.1 = StageTag.fetchTags :=
    fun x hx => stageTrace_mem _ nt x (htg.mem_iff.mp hx)
  have block : ∀ (l : List (StageTag × Nat)) (s : StageTag),
      (∀ x ∈ l, x.1 = s) →
      l.Pairwise (fun x y => stageIndex x.1 ≤ stageIndex y.1) :=
    fun l s hl => List.pairwise_of_forall_mem_list
      (fun a ha b hb => by rw [hl a ha, hl b hb])
  unfold pipelineTrace
  refine List.pairwise_append.mpr
    ⟨block p _ (fun x hx => stageTrace_mem _ np x (hp.mem_iff.mp hx)), ?_, ?_⟩
  · refine List.pairwise_append.mpr ⟨block d _ hdtag, ?_, ?_⟩
    · refine List.pairwise_append.mpr ⟨block c _ hctag, ?_, ?_⟩
      · refine List.pairwise_append.mpr
          ⟨block im _ himtag, block tg _ htgtag, ?_⟩
        intro x hx y hy
        rw [himtag x hx, htgtag y hy]
        decide
      · intro x hx y hy
        rw [hctag x hx]
        rcases List.mem_append.mp hy with hyi | hyt
        · rw [himtag y hyi]
          decide
        · rw [htgtag y hyt]
          decide
    · intro x hx y hy
      rw [hdtag x hx]
      rcases List.mem_append.mp hy with hyc | hy2
      · rw [hctag y hyc]
        decide
      · rcases List.mem_append.mp hy2 with hyi | hyt
        · rw [himtag y hyi]
          decide
        · rw [htgtag y hyt]
          decide
  · intro x hx y hy
    rw [stageTrace_mem _ np x (hp.mem_iff.mp hx)]
    exact Nat.zero_le _

/-- C5: the stage barrier for every pair of consecutive stages. Whatever
order the tasks of each stage complete in (any permutation of the per-stage
events), if s2 is the stage immediately after s1 in the stage order, every s1
event occurs strictly before every s2 event in the trace of
download_and_make_epg, which awaits each gathered stage to completion before
starting the next; in particular every FetchPrograms event precedes every
FetchDetails event. -/
theorem stage_barrier (np nd nc ni nt : Nat)
    (p d c im tg : List (StageTag × Nat))
    (hp : p.Perm (stageTrace .fetchPrograms np))
    (hd : d.Perm (stageTrace .fetchDetails nd))
    (hc : c.Perm (stageTrace .fetchCast nc))
    (him : im.Perm (stageTrace .fetchImages ni))
    (htg : tg.Perm (stageTrace .fetchTags nt)) :
    ∀ (s1 s2 : StageTag), stageIndex s2 = stageIndex s1 + 1 →
      ∀ (i j : Nat) (hi : i < (pipelineTrace p d c im tg).length)
        (hj : j < (pipelineTrace p d c im tg).length),
        ((pipelineTrace p d c im tg).get ⟨i, hi⟩).1 = s1 →
        ((pipelineTrace p d c im tg).get ⟨j, hj⟩).1 = s2 →
        i < j := by
  intro s1 s2 hcons i j hi hj hgi hgj
  have hpw := pipelineTrace_pairwise np nd nc ni nt p d c im tg hp hd hc him htg
  have hmono := List.pairwise_iff_get.mp hpw
  by_contra hcon
  have hle : j ≤ i := by omega
  rcases Nat.lt_or_eq_of_le hle with hji | hji
  · have hr := hmono ⟨j, hj⟩ ⟨i, hi⟩ hji
    rw [hgi, hgj] at hr
    omega
  · subst hji
    have heq : s1 = s2 := hgi.symm.trans hgj
    rw [heq] at hcons
    omega

/-- Witness for C5: one FetchPrograms task and one FetchDetails task, a
consecutive stage pair; the FetchPrograms event at position 0 precedes the
FetchDetails event at position 1. -/
theorem stage_barrier_witness : (0 : Nat) < 1 :=
  stage_barrier 1 1 0 0 0 (stageTrace .fetchPrograms 1)
    (stageTrace .fetchDetails 1) (stageTrace .fetchCast 0)
    (stageTrace .fetchImages 0) (stageTrace .fetchTags 0)
    (List.Perm.refl _) (List.Perm.refl _) (List.Perm.refl _)
    (List.Perm.refl _) (List.Perm.refl _) .fetchPrograms .fetchDetails
    (by decide) 0 1 (by decide) (by decide) (by decide) (by decide)

/-- C6: the FetchTags merge. With a truthy bulk-fetch result, every program
of every channel is tested: a program whose (id, start_timestamp) pair maps
to an attribute with bit 0b100 set gains the tag new, one whose attribute has
bit 0b1 set gains the tag live, and a program whose pair is not a key of the
result is left entirely unchanged. -/
theorem download_program_tags_bits (d : List ((Nat × Nat) × Nat))
    (chs : List Channel) (hd : d ≠ []) :
    download_program_tags (some d) chs =
        chs.map (fun ch =>
          { ch with programs := ch.programs.map (applyProgramTags d) }) ∧
      ∀ p : Program,
        (∀ v, tagLookup d (p.id, p.start_timestamp) = some v →
          (applyProgramTags d p).tags =
            p.tags ++ (if v &&& 0b100 ≠ 0 then ["new"] else [])
              ++ (if v &&& 0b1 ≠ 0 then ["live"] else [])) ∧
        (tagLookup d (p.id, p.start_timestamp) = none →
          applyProgramTags d p = p) := by
  constructor
  · cases d with
    | nil => exact absurd rfl hd
    | cons kv rest => simp [download_program_tags]
  · intro p
    constructor
    · intro v hv
      by_cases h4 : v &&& 0b100 = 0 <;> by_cases h1 : v % 2 = 1 <;>
        simp [applyProgramTags, inTagSet, hv, h4, h1]
    · intro hv
      simp [applyProgramTags, inTagSet, hv]

/-- Witness for C6: the bulk result maps (42, 1000) to 0b101; the program
with id 42 and start-time 1000 gains both tags, the one with id 42 and
start-time 2000 gains neither. -/
theorem download_program_tags_bits_witness :
    (applyProgramTags [((42, 1000), 5)]
        ⟨42, 1000, 2000, "a", [], none, none⟩).tags = ["new", "live"] ∧
      applyProgramTags [((42, 1000), 5)]
          ⟨42, 2000, 3000, "b", [], none, none⟩ =
        ⟨42, 2000, 3000, "b", [], none, none⟩ := by
  constructor
  · have h := ((download_program_tags_bits [((42, 1000), 5)] [] (by decide)).2
      ⟨42, 1000, 2000, "a", [], none, none⟩).1 5 (by decide)
    simpa using h
  · exact ((download_program_tags_bits [((42, 1000), 5)] [] (by decide)).2
      ⟨42, 2000, 3000, "b", [], none, none⟩).2 (by decide)

/-- C7: a channel whose guide-source id is absent gets the empty program list
with no fetch performed, and afterwards contributes zero per-program tasks to
each subsequent stage. -/
theorem download_programs_skip (fetched : List Program) (channel : Channel)
    (h : channel.tvguide_id = none) :
    download_programs fetched channel = ({ channel with programs := [] }, 0) ∧
      perProgramTasks (download_programs fetched channel).1 = 0 := by
  have hfalsy : strOptFalsy channel.tvguide_id = true := by
    rw [h]
    rfl
  constructor
  · simp [download_programs, hfalsy]
  · simp [download_programs, hfalsy, perProgramTasks]

/-- Witness for C7: a concrete channel without a tvguide_id. -/
theorem download_programs_skip_witness :
    download_programs [] ⟨"ch", "Name", "en", none, []⟩ =
        (⟨"ch", "Name", "en", none, []⟩, 0) ∧
      perProgramTasks (download_programs [] ⟨"ch", "Name", "en", none, []⟩).1 =
        0 :=
  download_programs_skip [] ⟨"ch", "Name", "en", none, []⟩ rfl

/-- Helper: the image loop preserves the number of images. -/
theorem download_program_images_length (o : Nat → Except ExcClass (Nat × Nat))
    (b : String) :
    ∀ (images : List ProgramImage) (k : Nat),
      (download_program_images o b k images).length = images.length := by
  intro images
  induction images with
  | nil =>
    intro k
    rfl
  | cons img rest ih =>
    intro k
    simp [download_program_images, ih]

/-- Helper: the image at position i of the result of the image loop started
at index k depends only on the outcome of image k + i: on success it is the
processed image, on failure the unmodified original. -/
theorem download_program_images_getElem (o : Nat → Except ExcClass (Nat × Nat))
    (b : String) :
    ∀ (images : List ProgramImage) (k i : Nat),
      (download_program_images o b k images)[i]? =
        (images[i]?).map (fun img =>
          match o (k + i) with
          | .ok (w, h) => processedImage b img w h
          | .error _ => img) := by
  intro images
  induction images with
  | nil =>
    intro k i
    simp [download_program_images]
  | cons img rest ih =>
    intro k i
    cases i with
    | zero => simp [download_program_images]
    | succ j =>
      have harith : k + 1 + j = k + (j + 1) := by omega
      simp [download_program_images, ih (k + 1) j, harith]

/-- C8: per-image failure isolation in the FetchImages stage. The whole list
is processed whatever the outcomes are (the length is preserved and each
position is determined by its own outcome alone): an image whose processing
raised is left at its original metadata, while an image whose download
succeeded with dimensions w and h is rewritten to the local copy. -/
theorem download_program_images_isolated
    (o : Nat → Except ExcClass (Nat × Nat)) (b : String)
    (images : List ProgramImage) (i : Nat) :
    (download_program_images o b 0 images).length = images.length ∧
      (∀ e, o i = .error e →
        (download_program_images o b 0 images)[i]? = images[i]?) ∧
      (∀ w h, o i = .ok (w, h) →
        (download_program_images o b 0 images)[i]? =
          (images[i]?).map (fun img => processedImage b img w h)) := by
  refine ⟨download_program_images_length o b images 0, ?_, ?_⟩
  · intro e he
    rw [download_program_images_getElem o b images 0 i]
    rw [Nat.zero_add, he]
    cases images[i]? <;> simp
  · intro w h hwh
    rw [download_program_images_getElem o b images 0 i]
    rw [Nat.zero_add, hwh]

/-- Witness for C8: a single image whose download raises TypeError is left
unmodified. -/
theorem download_program_images_isolated_witness :
    (download_program_images (fun _ => Except.error ExcClass.typeError)
        "base" 0 [⟨"u", 100, 50, "p/a.jpg", "cloud"⟩])[0]? =
      some ⟨"u", 100, 50, "p/a.jpg", "cloud"⟩ := by
  have h := (download_program_images_isolated
      (fun _ => Except.error ExcClass.typeError) "base"
      [⟨"u", 100, 50, "p/a.jpg", "cloud"⟩] 0).2.1 ExcClass.typeError rfl
  simpa using h

/-- C10: before the FetchImages stage runs, the posters directory is wiped
recursively, so every path below images/posters disappears from the
filesystem, and a poster from a previous run survives the image stage only if
this run rewrites it. -/
theorem posters_dir_wiped (fs writes : List String) (p : String)
    (hp : strStarts (postersDirName ++ "/") p = true) (hw : p ∉ writes) :
    p ∉ rmtree postersDirName fs ∧ p ∉ imagesStageFiles writes fs := by
  have h1 : p ∉ rmtree postersDirName fs := by
    intro hmem
    have hsplit := List.mem_filter.mp hmem
    rw [hp] at hsplit
    simp at hsplit
  refine ⟨h1, ?_⟩
  intro hmem
  rcases List.mem_append.mp hmem with hmem2 | hmem2
  · exact h1 hmem2
  · exact hw hmem2

/-- Witness for C10: a poster stored by a previous run and not re-downloaded
is gone after the image stage. -/
theorem posters_dir_wiped_witness :
    "images/posters/x.jpg" ∉
        rmtree postersDirName ["images/posters/x.jpg", "other/data.txt"] ∧
      "images/posters/x.jpg" ∉
        imagesStageFiles [] ["images/posters/x.jpg", "other/data.txt"] :=
  posters_dir_wiped ["images/posters/x.jpg", "other/data.txt"] []
    "images/posters/x.jpg" (by decide) (by simp)

end EpgDownloader
